import Mathlib

/-!
Verification of the two browser scripts of this repository.

`Admin` embeds `src/static/js/admin.js`: the `resetPassword` function that
prompts for a new password and, when the prompt returns a truthy string,
builds a hidden form and submits it.

`Flash` embeds `src/static/js/flash.js`: the `DOMContentLoaded` handler that
selects all `.alert` elements and schedules, for the element at NodeList
index `i`, a timer adding the `show` class after `i * 100` ms and a timer
setting `style.display = 'none'` after `5000` ms.
-/

namespace Admin

/-- A hidden input element, as created by `document.createElement('input')`
with its `type`, `name` and `value` fields set. -/
structure Input where
  type : String
  name : String
  value : String
  deriving DecidableEq

/-- A form element: `method`, `action`, and the list of child inputs
(appended by `appendChild`). -/
structure Form where
  method : String
  action : String
  inputs : List Input
  deriving DecidableEq

/-- The document state the admin script touches: the children appended to
`document.body`, and the list of forms on which `submit()` was called. -/
structure AdminDoc where
  body : List Form
  submitted : List Form
  deriving DecidableEq

/-- Observable events of one `resetPassword` call, in program order. -/
inductive AdminEvent where
  | promptShown (message : String)
  | formAppended (f : Form)
  | formSubmitted (f : Form)
  deriving DecidableEq

/-- JavaScript truthiness of `prompt`'s result: `null` and the empty string
are falsy, every other string is truthy. -/
def jsTruthy : Option String → Bool
  | none => false
  | some s => s ≠ ""

/-- The template literal shown by the prompt. -/
def promptMessage (username : String) : String :=
  "Enter new password for " ++ username ++ ":"

/-- Embedding of `resetPassword(userId, username)` from
`src/static/js/admin.js`.  The result of `prompt` is an explicit input
(`none` models the user cancelling).  Returns the updated document and the
trace of observable events in program order. -/
def resetPassword (userId username : String) (promptResult : Option String)
    (doc : AdminDoc) : AdminDoc × List AdminEvent :=
  let newPass := promptResult
  if jsTruthy newPass then
    let input : Input := { type := "hidden", name := "new_password", value := newPass.getD "" }
    let form : Form := { method := "POST", action := "/admin/reset_password/" ++ userId,
                         inputs := [input] }
    ( { body := doc.body ++ [form], submitted := doc.submitted ++ [form] },
      [AdminEvent.promptShown (promptMessage username),
       AdminEvent.formAppended form,
       AdminEvent.formSubmitted form] )
  else
    (doc, [AdminEvent.promptShown (promptMessage username)])

end Admin

namespace Admin

/-- C1: when the prompt returns a non-empty string `p`, `resetPassword`
builds a form with method POST and action `/admin/reset_password/` ++ userId
holding exactly one hidden input named `new_password` with value `p`,
appends it to the body, and submits it. -/
theorem resetPassword_submits (userId username p : String) (h : p ≠ "")
    (doc : AdminDoc) :
    resetPassword userId username (some p) doc =
      ( { body := doc.body ++
            [{ method := "POST", action := "/admin/reset_password/" ++ userId,
               inputs := [{ type := "hidden", name := "new_password", value := p }] }],
          submitted := doc.submitted ++
            [{ method := "POST", action := "/admin/reset_password/" ++ userId,
               inputs := [{ type := "hidden", name := "new_password", value := p }] }] },
        [AdminEvent.promptShown (promptMessage username),
         AdminEvent.formAppended
           { method := "POST", action := "/admin/reset_password/" ++ userId,
             inputs := [{ type := "hidden", name := "new_password", value := p }] },
         AdminEvent.formSubmitted
           { method := "POST", action := "/admin/reset_password/" ++ userId,
             inputs := [{ type := "hidden", name := "new_password", value := p }] }] ) := by
  simp [resetPassword, jsTruthy, h]

/-- Witness for C1 at `userId = "7"`, `username = "alice"`, `p = "hunter2"`. -/
theorem resetPassword_submits_witness :
    ("hunter2" : String) ≠ "" ∧
    resetPassword "7" "alice" (some "hunter2") ⟨[], []⟩ =
      ( { body :=
            [{ method := "POST", action := "/admin/reset_password/7",
               inputs := [{ type := "hidden", name := "new_password", value := "hunter2" }] }],
          submitted :=
            [{ method := "POST", action := "/admin/reset_password/7",
               inputs := [{ type := "hidden", name := "new_password", value := "hunter2" }] }] },
        [AdminEvent.promptShown (promptMessage "alice"),
         AdminEvent.formAppended
           { method := "POST", action := "/admin/reset_password/7",
             inputs := [{ type := "hidden", name := "new_password", value := "hunter2" }] },
         AdminEvent.formSubmitted
           { method := "POST", action := "/admin/reset_password/7",
             inputs := [{ type := "hidden", name := "new_password", value := "hunter2" }] }] ) := by
  refine ⟨by decide, ?_⟩
  have h := resetPassword_submits "7" "alice" "hunter2" (by decide) ⟨[], []⟩
  simpa using h

/-- C2: when the user cancels the prompt (`null` result), `resetPassword`
is a no-op on the document: nothing is appended, nothing is submitted, and
the only observable event is the prompt itself. -/
theorem resetPassword_cancel_noop (userId username : String) (doc : AdminDoc) :
    resetPassword userId username none doc =
      (doc, [AdminEvent.promptShown (promptMessage username)]) := by
  simp [resetPassword, jsTruthy]

/-- C8: when the prompt returns the empty string, the truthiness guard also
makes the call a no-op, exactly as for cancellation. -/
theorem resetPassword_empty_noop (userId username : String) (doc : AdminDoc) :
    resetPassword userId username (some "") doc =
      (doc, [AdminEvent.promptShown (promptMessage username)]) := by
  simp [resetPassword, jsTruthy]

/-- C3: a `formSubmitted` event can only occur when the prompt returned a
truthy value, the prompt event is the first event of the trace, and the
submission happens strictly after it (in the tail of the trace). -/
theorem resetPassword_submit_after_prompt (userId username : String)
    (pr : Option String) (f : Form) (doc : AdminDoc)
    (h : AdminEvent.formSubmitted f ∈ (resetPassword userId username pr doc).2) :
    jsTruthy pr = true ∧
    ((resetPassword userId username pr doc).2).head? =
      some (AdminEvent.promptShown (promptMessage username)) ∧
    AdminEvent.formSubmitted f ∈ ((resetPassword userId username pr doc).2).tail := by
  cases hpr : jsTruthy pr with
  | false =>
    exfalso
    simp [resetPassword, hpr] at h
  | true =>
    refine ⟨rfl, ?_, ?_⟩
    · simp [resetPassword, hpr]
    · simp [resetPassword, hpr] at h ⊢
      exact h

/-- Witness for C3 at a concrete truthy prompt. -/
theorem resetPassword_submit_after_prompt_witness :
    jsTruthy (some "pw") = true ∧
    ((resetPassword "1" "bob" (some "pw") ⟨[], []⟩).2).head? =
      some (AdminEvent.promptShown (promptMessage "bob")) ∧
    AdminEvent.formSubmitted
      { method := "POST", action := "/admin/reset_password/1",
        inputs := [{ type := "hidden", name := "new_password", value := "pw" }] } ∈
      ((resetPassword "1" "bob" (some "pw") ⟨[], []⟩).2).tail :=
  resetPassword_submit_after_prompt "1" "bob" (some "pw")
    { method := "POST", action := "/admin/reset_password/1",
      inputs := [{ type := "hidden", name := "new_password", value := "pw" }] }
    ⟨[], []⟩ (by decide)

/-- C9: the action URL of the submitted form is the literal string
concatenation of `/admin/reset_password/` and `userId`, with no escaping
applied: whatever characters `userId` holds appear verbatim. -/
theorem resetPassword_action_verbatim (userId username p : String) (h : p ≠ "")
    (doc : AdminDoc) :
    ∃ f : Form,
      ((resetPassword userId username (some p) doc).1).body = doc.body ++ [f] ∧
      ((resetPassword userId username (some p) doc).1).submitted = doc.submitted ++ [f] ∧
      f.action = "/admin/reset_password/" ++ userId := by
  refine ⟨{ method := "POST", action := "/admin/reset_password/" ++ userId,
            inputs := [{ type := "hidden", name := "new_password", value := p }] }, ?_, ?_, rfl⟩
  · simp [resetPassword, jsTruthy, h]
  · simp [resetPassword, jsTruthy, h]

/-- Witness for C9 at a `userId` containing `/`, `?` and `.` characters,
showing the characters are interpolated verbatim into the path. -/
theorem resetPassword_action_verbatim_witness :
    ("p" : String) ≠ "" ∧
    (∃ f : Form,
      ((resetPassword "1/../2?x" "bob" (some "p") ⟨[], []⟩).1).body = [] ++ [f] ∧
      ((resetPassword "1/../2?x" "bob" (some "p") ⟨[], []⟩).1).submitted = [] ++ [f] ∧
      f.action = "/admin/reset_password/" ++ "1/../2?x") :=
  ⟨by decide, resetPassword_action_verbatim "1/../2?x" "bob" "p" (by decide) ⟨[], []⟩⟩

end Admin

namespace Flash

/-- A DOM element as the flash script sees it: its class list, its
`style.display` value, and two representative further properties (`id`,
`tag`) the script never touches. -/
structure Element where
  classes : List String
  styleDisplay : String
  id : String
  tag : String
  deriving DecidableEq

/-- The two kinds of DOM mutation the scheduled callbacks perform, each
carrying the document index of the element it targets. -/
inductive Action where
  | addClass (j : Nat) (c : String)
  | setDisplay (j : Nat) (v : String)
  deriving DecidableEq

/-- The document index an action targets. -/
def Action.target : Action → Nat
  | Action.addClass j _ => j
  | Action.setDisplay j _ => j

/-- A timer registered by `setTimeout`, with its delay in milliseconds. -/
structure Timer where
  delay : Nat
  action : Action
  deriving DecidableEq

/-- Document indices of the elements matched by
`document.querySelectorAll('.alert')` (elements whose class list holds the
token `alert`), in document order, starting the count at `k`. -/
def alertIndicesFrom (k : Nat) : List Element → List Nat
  | [] => []
  | e :: es =>
    if "alert" ∈ e.classes then k :: alertIndicesFrom (k + 1) es
    else alertIndicesFrom (k + 1) es

/-- Document indices of the `.alert` NodeList, in document order. -/
def alertIndices (doc : List Element) : List Nat :=
  alertIndicesFrom 0 doc

/-- The timers registered by the `forEach` body for the NodeList suffix
starting at NodeList index `i`: for each matched element, one
`classList.add('show')` timer at `i * 100` ms and one
`style.display = 'none'` timer at `5000` ms, in registration order. -/
def timersFrom (i : Nat) : List Nat → List Timer
  | [] => []
  | j :: js =>
    ⟨i * 100, Action.addClass j "show"⟩ ::
    ⟨5000, Action.setDisplay j "none"⟩ ::
    timersFrom (i + 1) js

/-- All timers the `DOMContentLoaded` handler registers for `doc`. -/
def flashTimers (doc : List Element) : List Timer :=
  timersFrom 0 (alertIndices doc)

/-- Stable insertion of a timer after every already-queued timer of smaller
or equal delay (the browser fires equal-delay timers in registration
order). -/
def insertTimer (tm : Timer) : List Timer → List Timer
  | [] => [tm]
  | t :: ts => if tm.delay < t.delay then tm :: t :: ts else t :: insertTimer tm ts

/-- Firing order of a timer list: stable sort by delay. -/
def sortTimers : List Timer → List Timer
  | [] => []
  | t :: ts => insertTimer t (sortTimers ts)

/-- Apply a function to the element at document index `j`. -/
def modifyAt (f : Element → Element) : Nat → List Element → List Element
  | _, [] => []
  | 0, e :: es => f e :: es
  | n + 1, e :: es => e :: modifyAt f n es

/-- Apply one callback's mutation to the document.  `classList.add` appends
the token only when absent; the style assignment overwrites `display`. -/
def applyAction (doc : List Element) : Action → List Element
  | Action.addClass j c =>
      modifyAt (fun e =>
        { e with classes := if c ∈ e.classes then e.classes else e.classes ++ [c] }) j doc
  | Action.setDisplay j v =>
      modifyAt (fun e => { e with styleDisplay := v }) j doc

/-- Run a list of timers in the given order. -/
def runTimers (doc : List Element) (L : List Timer) : List Element :=
  L.foldl (fun d tm => applyAction d tm.action) doc

/-- Document state just before time `t`: all timers with delay `< t` have
fired, in firing order. -/
def runUpTo (doc : List Element) (t : Nat) : List Element :=
  runTimers doc ((sortTimers (flashTimers doc)).filter (fun tm => decide (tm.delay < t)))

/-- Document state after every registered timer has fired. -/
def runFlash (doc : List Element) : List Element :=
  runTimers doc (sortTimers (flashTimers doc))

/-- `style.display` of the element at document index `j`. -/
def displayOf (doc : List Element) (j : Nat) : Option String :=
  (doc[j]?).map Element.styleDisplay

/-- An element carrying only the `alert` class, used for concrete runs. -/
def alertElem : Element :=
  { classes := ["alert"], styleDisplay := "", id := "", tag := "div" }

/-- A two-banner document. -/
def doc2 : List Element := [alertElem, alertElem]

theorem mem_timersFrom_addClass (js : List Nat) :
    ∀ k i j, js[i]? = some j →
      Timer.mk ((k + i) * 100) (Action.addClass j "show") ∈ timersFrom k js := by
  induction js with
  | nil => intro k i j h; simp at h
  | cons j0 js ih =>
    intro k i j h
    cases i with
    | zero =>
      simp at h
      subst h
      simp [timersFrom]
    | succ i =>
      simp at h
      have := ih (k + 1) i j h
      have harith : k + 1 + i = k + (i + 1) := by omega
      rw [harith] at this
      simp [timersFrom, this]

theorem mem_timersFrom_setDisplay (js : List Nat) :
    ∀ k j, j ∈ js → Timer.mk 5000 (Action.setDisplay j "none") ∈ timersFrom k js := by
  induction js with
  | nil => intro k j h; simp at h
  | cons j0 js ih =>
    intro k j h
    rcases List.mem_cons.mp h with h | h
    · subst h; simp [timersFrom]
    · simp [timersFrom, ih (k + 1) j h]

theorem timersFrom_setDisplay_shape (js : List Nat) :
    ∀ k, ∀ tm ∈ timersFrom k js, ∀ j v, tm.action = Action.setDisplay j v →
      tm.delay = 5000 ∧ v = "none" ∧ j ∈ js := by
  induction js with
  | nil => intro k tm h; simp [timersFrom] at h
  | cons j0 js ih =>
    intro k tm h j v ha
    simp [timersFrom] at h
    rcases h with h | h | h
    · subst h; simp at ha
    · subst h
      simp at ha
      exact ⟨rfl, ha.2.symm, by simp [ha.1.symm]⟩
    · have := ih (k + 1) tm h j v ha
      exact ⟨this.1, this.2.1, by simp [this.2.2]⟩

theorem timersFrom_target_mem (js : List Nat) :
    ∀ k, ∀ tm ∈ timersFrom k js, tm.action.target ∈ js := by
  induction js with
  | nil => intro k tm h; simp [timersFrom] at h
  | cons j0 js ih =>
    intro k tm h
    simp [timersFrom] at h
    rcases h with h | h | h
    · subst h; simp [Action.target]
    · subst h; simp [Action.target]
    · simp [ih (k + 1) tm h]

theorem insertTimer_perm (tm : Timer) (l : List Timer) :
    (insertTimer tm l).Perm (tm :: l) := by
  induction l with
  | nil => simp [insertTimer]
  | cons t ts ih =>
    by_cases h : tm.delay < t.delay
    · simp [insertTimer, h]
    · simp only [insertTimer, if_neg h]
      exact (ih.cons t).trans (List.Perm.swap tm t ts)

theorem sortTimers_perm (l : List Timer) : (sortTimers l).Perm l := by
  induction l with
  | nil => simp [sortTimers]
  | cons t ts ih =>
    exact (insertTimer_perm t (sortTimers ts)).trans (ih.cons t)

theorem mem_sortTimers (tm : Timer) (l : List Timer) :
    tm ∈ sortTimers l ↔ tm ∈ l :=
  (sortTimers_perm l).mem_iff

theorem getElem?_modifyAt_ne (f : Element → Element) :
    ∀ (j k : Nat) (l : List Element), k ≠ j → (modifyAt f j l)[k]? = l[k]? := by
  intro j k l
  induction l generalizing j k with
  | nil => intro _; simp [modifyAt]
  | cons e es ih =>
    intro hne
    cases j with
    | zero =>
      cases k with
      | zero => exact absurd rfl hne
      | succ k => simp [modifyAt]
    | succ j =>
      cases k with
      | zero => simp [modifyAt]
      | succ k =>
        simp only [modifyAt, List.getElem?_cons_succ]
        exact ih j k (by omega)

theorem getElem?_modifyAt_eq (f : Element → Element) :
    ∀ (j : Nat) (l : List Element), (modifyAt f j l)[j]? = (l[j]?).map f := by
  intro j l
  induction l generalizing j with
  | nil => simp [modifyAt]
  | cons e es ih =>
    cases j with
    | zero => simp [modifyAt]
    | succ j => simp [modifyAt, ih j]

theorem applyAction_spec (doc : List Element) (a : Action) (k : Nat) (e : Element)
    (h : doc[k]? = some e) :
    ∃ e2, (applyAction doc a)[k]? = some e2 ∧ e2.id = e.id ∧ e2.tag = e.tag ∧
      (a.target ≠ k → e2 = e) ∧
      ((∀ v, a ≠ Action.setDisplay k v) → e2.styleDisplay = e.styleDisplay) ∧
      (∀ v, a = Action.setDisplay k v → e2.styleDisplay = v) := by
  cases a with
  | addClass j c =>
    by_cases hjk : j = k
    · subst hjk
      refine ⟨{ e with classes := if c ∈ e.classes then e.classes else e.classes ++ [c] },
        ?_, rfl, rfl, ?_, ?_, ?_⟩
      · simp [applyAction, getElem?_modifyAt_eq, h]
      · intro hne; exact absurd rfl hne
      · intro _; rfl
      · intro v hv; simp at hv
    · refine ⟨e, ?_, rfl, rfl, fun _ => rfl, fun _ => rfl, ?_⟩
      · rw [applyAction, getElem?_modifyAt_ne _ j k doc (fun hk => hjk hk.symm)]
        exact h
      · intro v hv; simp at hv
  | setDisplay j v =>
    by_cases hjk : j = k
    · subst hjk
      refine ⟨{ e with styleDisplay := v }, ?_, rfl, rfl, ?_, ?_, ?_⟩
      · simp [applyAction, getElem?_modifyAt_eq, h]
      · intro hne; exact absurd rfl hne
      · intro hno; exact absurd rfl (hno v)
      · intro v2 hv2; simp at hv2; rw [hv2]
    · refine ⟨e, ?_, rfl, rfl, fun _ => rfl, fun _ => rfl, ?_⟩
      · rw [applyAction, getElem?_modifyAt_ne _ j k doc (fun hk => hjk hk.symm)]
        exact h
      · intro v2 hv2
        exfalso
        simp at hv2
        exact hjk hv2.1

theorem runTimers_frame (L : List Timer) :
    ∀ (doc : List Element) (k : Nat) (e : Element), doc[k]? = some e →
      ∃ e2, (runTimers doc L)[k]? = some e2 ∧ e2.id = e.id ∧ e2.tag = e.tag ∧
        ((∀ tm ∈ L, tm.action.target ≠ k) → e2 = e) := by
  induction L with
  | nil =>
    intro doc k e h
    exact ⟨e, h, rfl, rfl, fun _ => rfl⟩
  | cons tm L ih =>
    intro doc k e h
    obtain ⟨e1, h1, hid1, htag1, hfr1, _, _⟩ := applyAction_spec doc tm.action k e h
    obtain ⟨e2, h2, hid2, htag2, hfr2⟩ := ih (applyAction doc tm.action) k e1 h1
    refine ⟨e2, h2, hid2.trans hid1, htag2.trans htag1, ?_⟩
    intro hall
    have he1 : e1 = e := hfr1 (hall tm (List.mem_cons_self tm L))
    have he2 : e2 = e1 := hfr2 (fun tm2 hm => hall tm2 (List.mem_cons_of_mem tm hm))
    exact he2.trans he1

theorem runTimers_display_pres (L : List Timer) :
    ∀ (doc : List Element) (k : Nat) (e : Element), doc[k]? = some e →
      (∀ tm ∈ L, ∀ v, tm.action ≠ Action.setDisplay k v) →
      ∃ e2, (runTimers doc L)[k]? = some e2 ∧ e2.styleDisplay = e.styleDisplay := by
  induction L with
  | nil =>
    intro doc k e h _
    exact ⟨e, h, rfl⟩
  | cons tm L ih =>
    intro doc k e h hall
    obtain ⟨e1, h1, _, _, _, hdisp, _⟩ := applyAction_spec doc tm.action k e h
    have hd1 : e1.styleDisplay = e.styleDisplay :=
      hdisp (fun v => hall tm (List.mem_cons_self tm L) v)
    obtain ⟨e2, h2, hd2⟩ := ih (applyAction doc tm.action) k e1 h1
      (fun tm2 hm v => hall tm2 (List.mem_cons_of_mem tm hm) v)
    exact ⟨e2, h2, hd2.trans hd1⟩

theorem runTimers_display_none (L : List Timer) :
    ∀ (doc : List Element) (k : Nat),
      (∃ tm ∈ L, tm.action = Action.setDisplay k "none") →
      (∀ tm ∈ L, ∀ v, tm.action = Action.setDisplay k v → v = "none") →
      (∃ e, doc[k]? = some e) →
      ∃ e2, (runTimers doc L)[k]? = some e2 ∧ e2.styleDisplay = "none" := by
  induction L with
  | nil =>
    intro doc k hex _ _
    simp at hex
  | cons tm L ih =>
    intro doc k hex hall hk
    obtain ⟨e, he⟩ := hk
    obtain ⟨e1, h1, _, _, _, _, hset⟩ := applyAction_spec doc tm.action k e he
    by_cases hL : ∃ tm2 ∈ L, tm2.action = Action.setDisplay k "none"
    · exact ih (applyAction doc tm.action) k hL
        (fun tm2 hm v hv => hall tm2 (List.mem_cons_of_mem tm hm) v hv) ⟨e1, h1⟩
    · obtain ⟨tm0, hm0, ha0⟩ := hex
      rcases List.mem_cons.mp hm0 with hm0 | hm0
      · subst hm0
        have hd1 : e1.styleDisplay = "none" := hset "none" ha0
        have hnone : ∀ tm2 ∈ L, ∀ v, tm2.action ≠ Action.setDisplay k v := by
          intro tm2 hm v hv
          have := hall tm2 (List.mem_cons_of_mem tm0 hm) v hv
          exact hL ⟨tm2, hm, by rw [hv, this]⟩
        obtain ⟨e2, h2, hd2⟩ := runTimers_display_pres L (applyAction doc tm0.action) k e1 h1 hnone
        exact ⟨e2, h2, hd2.trans hd1⟩
      · exact absurd ⟨tm0, hm0, ha0⟩ hL

theorem mem_alertIndicesFrom (l : List Element) :
    ∀ k j, j ∈ alertIndicesFrom k l →
      ∃ m e, j = k + m ∧ l[m]? = some e ∧ "alert" ∈ e.classes := by
  induction l with
  | nil => intro k j h; simp [alertIndicesFrom] at h
  | cons e0 es ih =>
    intro k j h
    by_cases hc : "alert" ∈ e0.classes
    · simp only [alertIndicesFrom, if_pos hc] at h
      rcases List.mem_cons.mp h with h | h
      · exact ⟨0, e0, by omega, by simp, hc⟩
      · obtain ⟨m, e, hm, he, hcl⟩ := ih (k + 1) j h
        exact ⟨m + 1, e, by omega, by simpa using he, hcl⟩
    · simp only [alertIndicesFrom, if_neg hc] at h
      obtain ⟨m, e, hm, he, hcl⟩ := ih (k + 1) j h
      exact ⟨m + 1, e, by omega, by simpa using he, hcl⟩

theorem mem_alertIndices (doc : List Element) (j : Nat) (h : j ∈ alertIndices doc) :
    ∃ e, doc[j]? = some e ∧ "alert" ∈ e.classes := by
  obtain ⟨m, e, hm, he, hcl⟩ := mem_alertIndicesFrom doc 0 j h
  have : j = m := by omega
  subst this
  exact ⟨e, he, hcl⟩

theorem not_mem_alertIndices (doc : List Element) (j : Nat) (e : Element)
    (h : doc[j]? = some e) (hc : "alert" ∉ e.classes) : j ∉ alertIndices doc := by
  intro hmem
  obtain ⟨e2, he2, hcl⟩ := mem_alertIndices doc j hmem
  rw [h] at he2
  cases he2
  exact hc hcl

/-- Whether a timer is a reveal timer (a `classList.add` callback). -/
def isReveal (tm : Timer) : Bool :=
  match tm.action with
  | Action.addClass _ _ => true
  | Action.setDisplay _ _ => false

/-- The delays of the reveal timers, in registration order. -/
def revealDelays (doc : List Element) : List Nat :=
  ((flashTimers doc).filter isReveal).map Timer.delay

theorem revealDelays_timersFrom (js : List Nat) :
    ∀ k, ((timersFrom k js).filter isReveal).map Timer.delay =
      (List.range' k js.length).map (fun i => i * 100) := by
  induction js with
  | nil => intro k; simp [timersFrom]
  | cons j0 js ih =>
    intro k
    simp only [timersFrom, List.filter_cons, List.length_cons, List.range']
    norm_num [isReveal, ih (k + 1)]

/-- A fifty-two banner document, enough for a reveal delay past 5000 ms. -/
def doc52 : List Element := List.replicate 52 alertElem

/-- C4: for the element at NodeList index `i`, the handler registers a
timer adding the `show` class at delay `i * 100` milliseconds. -/
theorem flash_reveal_staggered (doc : List Element) (i j : Nat)
    (h : (alertIndices doc)[i]? = some j) :
    Timer.mk (i * 100) (Action.addClass j "show") ∈ flashTimers doc := by
  have := mem_timersFrom_addClass (alertIndices doc) 0 i j h
  simpa using this

/-- Witness for C4 on the two-banner document at NodeList index 1. -/
theorem flash_reveal_staggered_witness :
    (alertIndices doc2)[1]? = some 1 ∧
    Timer.mk (1 * 100) (Action.addClass 1 "show") ∈ flashTimers doc2 :=
  ⟨by decide, flash_reveal_staggered doc2 1 1 (by decide)⟩

/-- C5: every matched element gets a hide timer (`style.display = 'none'`)
at delay exactly 5000 ms, and every hide timer in the schedule has that
same fixed delay, whatever the element's index. -/
theorem flash_hide_fixed_5000 (doc : List Element) (j : Nat)
    (h : j ∈ alertIndices doc) :
    Timer.mk 5000 (Action.setDisplay j "none") ∈ flashTimers doc ∧
    ∀ tm ∈ flashTimers doc, (∃ j2 v, tm.action = Action.setDisplay j2 v) →
      tm.delay = 5000 := by
  refine ⟨mem_timersFrom_setDisplay (alertIndices doc) 0 j h, ?_⟩
  rintro tm hm ⟨j2, v, ha⟩
  exact (timersFrom_setDisplay_shape (alertIndices doc) 0 tm hm j2 v ha).1

/-- Witness for C5 on the two-banner document at document index 0. -/
theorem flash_hide_fixed_5000_witness :
    0 ∈ alertIndices doc2 ∧
    (Timer.mk 5000 (Action.setDisplay 0 "none") ∈ flashTimers doc2 ∧
     ∀ tm ∈ flashTimers doc2, (∃ j2 v, tm.action = Action.setDisplay j2 v) →
       tm.delay = 5000) :=
  ⟨by decide, flash_hide_fixed_5000 doc2 0 (by decide)⟩

/-- Counterexample to C6: on a two-banner document the two reveal timers
have delays `0 * 100` and `1 * 100`, which differ, so the reveal delay is
not one fixed value for all matched elements. -/
theorem flash_reveal_delay_not_fixed :
    Timer.mk (0 * 100) (Action.addClass 0 "show") ∈ flashTimers doc2 ∧
    Timer.mk (1 * 100) (Action.addClass 1 "show") ∈ flashTimers doc2 ∧
    (0 * 100 : Nat) ≠ 1 * 100 := by decide

/-- C6 (amended): the reveal delays are not one fixed value; they are the
staggered schedule `0, 100, 200, …`: the list of reveal-timer delays equals
`i * 100` for NodeList indices `i` in order. -/
theorem flash_reveal_delays_staggered (doc : List Element) :
    revealDelays doc =
      (List.range (alertIndices doc).length).map (fun i => i * 100) := by
  rw [revealDelays, flashTimers, revealDelays_timersFrom (alertIndices doc) 0,
    List.range_eq_range']

/-- C7: running every scheduled timer only ever touches the class list and
the `display` style of `.alert` elements: every element keeps its `id` and
`tag`, and an element without the `alert` class is left entirely
unchanged. -/
theorem flash_frame (doc : List Element) (j : Nat) (e : Element)
    (h : doc[j]? = some e) :
    ∃ e2, (runFlash doc)[j]? = some e2 ∧ e2.id = e.id ∧ e2.tag = e.tag ∧
      ("alert" ∉ e.classes → e2 = e) := by
  obtain ⟨e2, h2, hid, htag, hfr⟩ :=
    runTimers_frame (sortTimers (flashTimers doc)) doc j e h
  refine ⟨e2, h2, hid, htag, fun hc => ?_⟩
  apply hfr
  intro tm hm heq
  have hmem : tm ∈ flashTimers doc := (mem_sortTimers tm _).1 hm
  have htgt := timersFrom_target_mem (alertIndices doc) 0 tm hmem
  rw [heq] at htgt
  exact not_mem_alertIndices doc j e h hc htgt

/-- Witness for C7: a document holding one alert banner and one plain
element; the plain element survives the whole run unchanged. -/
theorem flash_frame_witness :
    ([alertElem, { classes := ["nav"], styleDisplay := "", id := "menu", tag := "ul" }] :
        List Element)[1]? =
      some { classes := ["nav"], styleDisplay := "", id := "menu", tag := "ul" } ∧
    ∃ e2, (runFlash [alertElem,
        { classes := ["nav"], styleDisplay := "", id := "menu", tag := "ul" }])[1]? = some e2 ∧
      e2.id = "menu" ∧ e2.tag = "ul" ∧
      ("alert" ∉ (["nav"] : List String) → e2 =
        { classes := ["nav"], styleDisplay := "", id := "menu", tag := "ul" }) :=
  ⟨by decide, flash_frame
    [alertElem, { classes := ["nav"], styleDisplay := "", id := "menu", tag := "ul" }] 1
    { classes := ["nav"], styleDisplay := "", id := "menu", tag := "ul" } (by decide)⟩

/-- C10: for a matched element at NodeList index `i` with `i * 100 > 5000`,
the hide timer (delay 5000) fires strictly before the reveal timer (delay
`i * 100`), so when the reveal fires the element's `display` is already
`'none'`. -/
theorem flash_late_reveal_hidden (doc : List Element) (i j : Nat)
    (h : (alertIndices doc)[i]? = some j) (hlate : 5000 < i * 100) :
    Timer.mk 5000 (Action.setDisplay j "none") ∈ flashTimers doc ∧
    Timer.mk (i * 100) (Action.addClass j "show") ∈ flashTimers doc ∧
    displayOf (runUpTo doc (i * 100)) j = some "none" := by
  have hjmem : j ∈ alertIndices doc := by
    have := List.getElem?_mem h
    exact this
  have hide_mem : Timer.mk 5000 (Action.setDisplay j "none") ∈ flashTimers doc :=
    mem_timersFrom_setDisplay (alertIndices doc) 0 j hjmem
  refine ⟨hide_mem, flash_reveal_staggered doc i j h, ?_⟩
  obtain ⟨e, he, _⟩ := mem_alertIndices doc j hjmem
  obtain ⟨e2, h2, hd2⟩ := runTimers_display_none
    ((sortTimers (flashTimers doc)).filter (fun tm => decide (tm.delay < i * 100)))
    doc j
    ⟨Timer.mk 5000 (Action.setDisplay j "none"),
      List.mem_filter.2 ⟨(mem_sortTimers _ _).2 hide_mem, by simpa using hlate⟩, rfl⟩
    (fun tm hm v hv =>
      (timersFrom_setDisplay_shape (alertIndices doc) 0 tm
        ((mem_sortTimers tm _).1 (List.mem_filter.1 hm).1) j v hv).2.1)
    ⟨e, he⟩
  rw [displayOf, runUpTo, h2]
  simp [hd2]

/-- Witness for C10 on a fifty-two banner document: index 51 reveals at
5100 ms, after the 5000 ms hide. -/
theorem flash_late_reveal_hidden_witness :
    (alertIndices doc52)[51]? = some 51 ∧ 5000 < 51 * 100 ∧
    (Timer.mk 5000 (Action.setDisplay 51 "none") ∈ flashTimers doc52 ∧
     Timer.mk (51 * 100) (Action.addClass 51 "show") ∈ flashTimers doc52 ∧
     displayOf (runUpTo doc52 (51 * 100)) 51 = some "none") :=
  ⟨by decide, by decide, flash_late_reveal_hidden doc52 51 51 (by decide) (by decide)⟩

end Flash
